import Mathlib

/-!
Shallow embedding of the SSE client `sse-client` (src/lib.rs), covering the
stream-parsing state machine, the listener registry and the dispatch engine.

Modelling conventions:
* Rust strings are Lean `String`s; `str::split(":")` is modelled by the
  character-list splitter `splitOnChar`.
* A Rust panic (out-of-bounds index, `unwrap` on `Err`) is modelled by `none`
  in an `Option`-valued result; a panicking step kills the worker, so a run
  that panics keeps the outputs already emitted and has no final state.
* Listener callbacks are opaque: they are modelled by `Nat` identifiers, and
  an invocation is the emission of a `Call` record into the output trace.
-/

/-- Connection state of the client (src/lib.rs, `enum State`). -/
inductive State where
  | CONNECTING
  | OPEN
  | CLOSED
  deriving DecidableEq

/-- An SSE event: a type and a data payload (src/lib.rs, `struct Event`). -/
structure Event where
  type_ : String
  data : String
  deriving DecidableEq

/-- One observable callback invocation: an open-callback firing, or an event
callback receiving an event. Callbacks are identified by `Nat` ids. -/
inductive Call where
  | onOpen (cb : Nat)
  | event (cb : Nat) (e : Event)
  deriving DecidableEq

/-- Listener registry of an `EventSource`: the ordered open-callback list and
the map from event type to its ordered callback list (modelled as an
association list, since only `contains_key`, `get` and `push` are used). -/
structure Registry where
  on_open_listeners : List Nat
  listeners : List (String × List Nat)
  deriving DecidableEq

/-- Splits a character list on a separator character, mirroring Rust
`str::split`: n occurrences of the separator yield n+1 (possibly empty)
parts, so the result is never empty. -/
def splitOnChar (c : Char) : List Char → List (List Char)
  | [] => [[]]
  | x :: xs =>
    if x = c then [] :: splitOnChar c xs
    else
      match splitOnChar c xs with
      | [] => [[x]]
      | p :: ps => (x :: p) :: ps

/-- Drops leading whitespace from a character list. -/
def trimLeftChars (l : List Char) : List Char :=
  l.dropWhile Char.isWhitespace

/-- Rust `str::trim`: removes leading and trailing whitespace. -/
def trimChars (l : List Char) : List Char :=
  (trimLeftChars (trimLeftChars l).reverse).reverse

/-- Rust `str::starts_with(":")`: whether the first character is `c`. -/
def startsWithChar (c : Char) (s : String) : Bool :=
  match s.data with
  | [] => false
  | x :: _ => x = c

/-- Field parser (src/lib.rs lines 165-168): `message.split(":")` collected,
then `(parts[0], parts[1].trim())`. When the line has no `:` the split has a
single part and `parts[1]` is out of bounds: the Rust code panics, modelled
here by `none`. -/
def parse_field (message : String) : Option (String × String) :=
  match splitOnChar ':' message.data with
  | p0 :: p1 :: _ => some (String.mk p0, String.mk (trimChars p1))
  | _ => none

/-- Event accumulator (src/lib.rs lines 150-163): clones the pending event or
creates the default `message` event, then applies the parsed field. The outer
`Option` is the panic of `parse_field`; the Rust function itself always
returns `Some(event)` on a non-panicking path. -/
def update_event (pending_event : Option Event) (message : String) :
    Option (Option Event) :=
  let event :=
    match pending_event with
    | some e => e
    | none => { type_ := "message", data := "" }
  match parse_field message with
  | none => none
  | some (name, value) =>
    if name = "event" then some (some { event with type_ := value })
    else if name = "data" then some (some { event with data := value })
    else some (some event)

/-- Lookup in the listener map, mirroring `contains_key` followed by `get`. -/
def lookupListeners : List (String × List Nat) → String → Option (List Nat)
  | [], _ => none
  | (k, v) :: rest, t => if k = t then some v else lookupListeners rest t

/-- Event dispatch (src/lib.rs lines 134-141): if the registry has the event
type, every callback in its list is invoked in order with a clone of the
event. -/
def dispatch_event (listeners : List (String × List Nat)) (e : Event) :
    List Call :=
  match lookupListeners listeners e.type_ with
  | some cbs => cbs.map (fun cb => Call.event cb e)
  | none => []

/-- Open dispatch (src/lib.rs lines 143-148): every open-callback is invoked
in registration order. -/
def dispatch_open_event (listeners : List Nat) : List Call :=
  listeners.map Call.onOpen

/-- Header-phase line handler (src/lib.rs lines 107-114): the empty line
dispatches the open-callbacks and moves to OPEN; any other line stays
CONNECTING. -/
def handle_stream_header (line : String) (listeners : List Nat) :
    State × List Call :=
  if line = "" then (State.OPEN, dispatch_open_event listeners)
  else (State.CONNECTING, [])

/-- Body-phase line handler (src/lib.rs lines 116-132). The local `event`
starts as `None`: an empty line dispatches the pending event (if any) and
returns `None`; a non-empty, non-comment line returns `update_event`'s
result; a comment line falls through and returns the initial `None`. The
outer `Option` is the panic propagated from `update_event`. -/
def handle_stream_body (pending_event : Option Event) (line : String)
    (listeners : List (String × List Nat)) :
    Option (Option Event × List Call) :=
  if line = "" then
    some (none,
      match pending_event with
      | some e => dispatch_event listeners e
      | none => [])
  else if startsWithChar ':' line then
    some (none, [])
  else
    match update_event pending_event line with
    | some ev => some (ev, [])
    | none => none

/-- Listener registration (src/lib.rs lines 68-77): push onto the existing
list for the type, or insert a fresh singleton list. -/
def add_event_listener : List (String × List Nat) → String → Nat →
    List (String × List Nat)
  | [], event_type, cb => [(event_type, [cb])]
  | (k, v) :: rest, event_type, cb =>
    if k = event_type then (k, v ++ [cb]) :: rest
    else (k, v) :: add_event_listener rest event_type cb

/-- Message registration sugar (src/lib.rs lines 64-66):
`add_event_listener("message", ...)`. -/
def on_message (listeners : List (String × List Nat)) (cb : Nat) :
    List (String × List Nat) :=
  add_event_listener listeners "message" cb

/-- One iteration of the worker loop (src/lib.rs lines 95-103): in
CONNECTING the line goes to the header handler (the pending event is
untouched); in any other state it goes to the body handler (the connection
state is untouched). `none` is a worker panic. -/
def worker_step (reg : Registry) (s : State × Option Event) (line : String) :
    Option ((State × Option Event) × List Call) :=
  match s.1 with
  | State.CONNECTING =>
    let r := handle_stream_header line reg.on_open_listeners
    some ((r.1, s.2), r.2)
  | _ =>
    match handle_stream_body s.2 line reg.listeners with
    | some (p, out) => some ((s.1, p), out)
    | none => none

/-- The worker loop over a finite line sequence (src/lib.rs `listen_to_stream`,
lines 85-105): at each line one `worker_step`; on a panic the outputs already
emitted remain and there is no final state. -/
def run_worker (reg : Registry) :
    (State × Option Event) → List String →
    List Call × Option (State × Option Event)
  | s, [] => ([], some s)
  | s, line :: rest =>
    match worker_step reg s line with
    | some (s2, out) =>
      let r := run_worker reg s2 rest
      (out ++ r.1, r.2)
    | none => ([], none)

/-- An interleaving action on the shared connection state: the worker reads
one line, or some thread calls `close()`. -/
inductive ThreadAction where
  | read (line : String)
  | close
  deriving DecidableEq

/-- Effect of one action on the shared `ready_state` (src/lib.rs lines 53-57
and 95-103): `close()` sets CLOSED unconditionally; a worker read updates the
state through the header handler only while CONNECTING and leaves it
unchanged otherwise. -/
def sys_step (reg : Registry) (s : State) (a : ThreadAction) : State :=
  match a with
  | ThreadAction.close => State.CLOSED
  | ThreadAction.read line =>
    match s with
    | State.CONNECTING => (handle_stream_header line reg.on_open_listeners).1
    | _ => s

/-- Connection state after the first `i` actions of a trace, starting from
CONNECTING as `EventSource::new` does. -/
def stateAt (reg : Registry) (tr : List ThreadAction) (i : Nat) : State :=
  (tr.take i).foldl (sys_step reg) State.CONNECTING

/-- Position of a state along CONNECTING → OPEN → CLOSED. -/
def rank : State → Nat
  | State.CONNECTING => 0
  | State.OPEN => 1
  | State.CLOSED => 2

/-- Boolean guard that every header line of a list is non-empty. -/
def allNonEmpty (lines : List String) : Bool :=
  lines.all (fun l => !(l == ""))

/-- Modelled from the spec: result of `EventSource::new`. The constructor can
return the handle (having started the worker), return the URL parse error
synchronously, or panic. -/
inductive NewOutcome where
  | ok (workerStarted : Bool)
  | err (e : String)
  | panicked
  deriving DecidableEq

/-- Constructor `EventSource::new` (src/lib.rs lines 36-51) with the two
external collaborators abstracted as inputs. `urlParse` stands for
`Url::parse(url)`; its error is propagated synchronously by `?` before any
worker is started. `connect` stands for `network::open_connection`, modelled
from the spec: the network module is not part of the given sources and the
spec specifies `connect(parsedEndpoint) -> DuplexByteStream | ConnectionError`;
the source applies `.unwrap()` to it, which panics on a connection error.
On success `listen_to_stream` is called: the worker is started. -/
def eventSource_new (urlParse : Except String Unit)
    (connect : Except String Unit) : NewOutcome :=
  match urlParse with
  | Except.error e => NewOutcome.err e
  | Except.ok _ =>
    match connect with
    | Except.error _ => NewOutcome.panicked
    | Except.ok _ => NewOutcome.ok true

/-- Field parser as the spec describes it (for the refinement comparison in
the C2 analysis): split on the FIRST `:` only, the value is the entire
remainder of the line with only leading whitespace removed. -/
def parse_field_spec (message : String) : Option (String × String) :=
  match splitOnChar ':' message.data with
  | p0 :: p1 :: ps =>
    some (String.mk p0, String.mk (trimLeftChars (List.intercalate [':'] (p1 :: ps))))
  | _ => none

/-! Helper lemmas about the parser and the body handler. -/

lemma update_event_of_parse_event (e : Event) (line v : String)
    (h : parse_field line = some ("event", v)) :
    update_event (some e) line = some (some { type_ := v, data := e.data }) := by
  unfold update_event
  rw [h]
  simp

lemma update_event_of_parse_data (e : Event) (line v : String)
    (h : parse_field line = some ("data", v)) :
    update_event (some e) line = some (some { type_ := e.type_, data := v }) := by
  unfold update_event
  rw [h]
  simp

lemma update_event_of_parse_other (p : Option Event) (line n v : String)
    (h : parse_field line = some (n, v)) (he : n ≠ "event") (hd : n ≠ "data") :
    update_event p line =
      some (some (match p with
        | some e => e
        | none => { type_ := "message", data := "" })) := by
  unfold update_event
  rw [h]
  simp [he, hd]

lemma update_event_isSome_of_parse (p : Option Event) (line n v : String)
    (h : parse_field line = some (n, v)) :
    ∃ ev, update_event p line = some (some ev) := by
  unfold update_event
  rw [h]
  by_cases h1 : n = "event" <;> by_cases h2 : n = "data" <;> simp [h1, h2]

lemma handle_stream_body_field (p : Option Event) (line : String)
    (L : List (String × List Nat)) (h1 : line ≠ "")
    (h2 : startsWithChar ':' line = false) :
    handle_stream_body p line L =
      match update_event p line with
      | some ev => some (ev, [])
      | none => none := by
  unfold handle_stream_body
  rw [if_neg h1, h2]
  simp

lemma splitOnChar_cons (c x : Char) (xs : List Char) :
    splitOnChar c (x :: xs) =
      if x = c then [] :: splitOnChar c xs
      else
        match splitOnChar c xs with
        | [] => [[x]]
        | p :: ps => (x :: p) :: ps := rfl

lemma splitOnChar_of_not_mem (c : Char) (l : List Char) (h : c ∉ l) :
    splitOnChar c l = [l] := by
  induction l with
  | nil => rfl
  | cons x xs ih =>
    have hx : ¬x = c := fun he => h (he ▸ List.mem_cons_self x xs)
    have hxs : c ∉ xs := fun hm => h (List.mem_cons_of_mem x hm)
    rw [splitOnChar_cons, if_neg hx, ih hxs]

lemma splitOnChar_append_sep (c : Char) (l r : List Char) (h : c ∉ l) :
    splitOnChar c (l ++ c :: r) = l :: splitOnChar c r := by
  induction l with
  | nil =>
    show splitOnChar c (c :: r) = [] :: splitOnChar c r
    rw [splitOnChar_cons, if_pos rfl]
  | cons x xs ih =>
    have hx : ¬x = c := fun he => h (he ▸ List.mem_cons_self x xs)
    have hxs : c ∉ xs := fun hm => h (List.mem_cons_of_mem x hm)
    show splitOnChar c (x :: (xs ++ c :: r)) = (x :: xs) :: splitOnChar c r
    rw [splitOnChar_cons, if_neg hx, ih hxs]

lemma data_append_colon_cons (n v : String) :
    (n ++ ":" ++ v).data = n.data ++ ':' :: v.data := by
  rw [String.data_append, String.data_append]
  show n.data ++ [':'] ++ v.data = n.data ++ ':' :: v.data
  rw [List.append_assoc]
  rfl

lemma parse_field_of_split (n v : String) (hn : ':' ∉ n.data) (hv : ':' ∉ v.data) :
    parse_field (n ++ ":" ++ v) = some (n, String.mk (trimChars v.data)) := by
  unfold parse_field
  rw [data_append_colon_cons, splitOnChar_append_sep ':' n.data v.data hn,
    splitOnChar_of_not_mem ':' v.data hv]

lemma dispatch_event_only_events (L : List (String × List Nat)) (e : Event) :
    ∀ c ∈ dispatch_event L e, ∃ cb, c = Call.event cb e := by
  unfold dispatch_event
  cases lookupListeners L e.type_ with
  | none => simp
  | some cbs =>
    intro c hc
    simp only [List.mem_map] at hc
    obtain ⟨cb, _, rfl⟩ := hc
    exact ⟨cb, rfl⟩

lemma handle_stream_body_only_events (p p2 : Option Event) (line : String)
    (L : List (String × List Nat)) (out : List Call)
    (h : handle_stream_body p line L = some (p2, out)) :
    ∀ c ∈ out, ∃ cb e, c = Call.event cb e := by
  unfold handle_stream_body at h
  by_cases h1 : line = ""
  · rw [if_pos h1] at h
    cases p with
    | none =>
      simp only [Option.some.injEq, Prod.mk.injEq] at h
      intro c hc
      rw [← h.2] at hc
      simp at hc
    | some e =>
      simp only [Option.some.injEq, Prod.mk.injEq] at h
      intro c hc
      rw [← h.2] at hc
      obtain ⟨cb, rfl⟩ := dispatch_event_only_events L e c hc
      exact ⟨cb, e, rfl⟩
  · rw [if_neg h1] at h
    by_cases h2 : startsWithChar ':' line
    · rw [if_pos h2] at h
      simp only [Option.some.injEq, Prod.mk.injEq] at h
      intro c hc
      rw [← h.2] at hc
      simp at hc
    · rw [if_neg h2] at h
      cases hu : update_event p line with
      | none => rw [hu] at h; exact absurd h (by simp)
      | some ev =>
        rw [hu] at h
        simp only [Option.some.injEq, Prod.mk.injEq] at h
        intro c hc
        rw [← h.2] at hc
        simp at hc

lemma worker_step_connecting (reg : Registry) (p : Option Event) (line : String) :
    worker_step reg (State.CONNECTING, p) line =
      some (((handle_stream_header line reg.on_open_listeners).1, p),
        (handle_stream_header line reg.on_open_listeners).2) := rfl

lemma worker_step_open (reg : Registry) (p : Option Event) (line : String) :
    worker_step reg (State.OPEN, p) line =
      match handle_stream_body p line reg.listeners with
      | some (p2, out) => some ((State.OPEN, p2), out)
      | none => none := rfl

lemma run_worker_cons (reg : Registry) (s : State × Option Event)
    (line : String) (rest : List String) :
    run_worker reg s (line :: rest) =
      match worker_step reg s line with
      | some (s2, out) =>
        (out ++ (run_worker reg s2 rest).1, (run_worker reg s2 rest).2)
      | none => ([], none) := rfl

lemma run_worker_open_only_events (reg : Registry) :
    ∀ (rest : List String) (p : Option Event),
      ∀ c ∈ (run_worker reg (State.OPEN, p) rest).1, ∃ cb e, c = Call.event cb e := by
  intro rest
  induction rest with
  | nil => intro p c hc; simp [run_worker] at hc
  | cons line rest ih =>
    intro p c hc
    rw [run_worker_cons, worker_step_open] at hc
    cases hb : handle_stream_body p line reg.listeners with
    | none => rw [hb] at hc; simp at hc
    | some r =>
      obtain ⟨p2, out⟩ := r
      rw [hb] at hc
      simp only [List.mem_append] at hc
      cases hc with
      | inl hin => exact handle_stream_body_only_events p p2 line reg.listeners out hb c hin
      | inr hin => exact ih p2 c hin

lemma run_worker_header_phase (reg : Registry) (rest : List String) :
    ∀ (headers : List String) (p : Option Event), allNonEmpty headers = true →
      run_worker reg (State.CONNECTING, p) (headers ++ "" :: rest) =
        (dispatch_open_event reg.on_open_listeners ++
          (run_worker reg (State.OPEN, p) rest).1,
          (run_worker reg (State.OPEN, p) rest).2) := by
  intro headers
  induction headers with
  | nil =>
    intro p _
    show run_worker reg (State.CONNECTING, p) ("" :: rest) = _
    rw [run_worker_cons, worker_step_connecting]
    simp [handle_stream_header]
  | cons hd tl ih =>
    intro p h
    simp only [allNonEmpty, List.all_cons, Bool.and_eq_true, Bool.not_eq_true',
      beq_eq_false_iff_ne, ne_eq] at h
    obtain ⟨h1, h2⟩ := h
    show run_worker reg (State.CONNECTING, p) (hd :: (tl ++ "" :: rest)) = _
    rw [run_worker_cons, worker_step_connecting]
    simp only [handle_stream_header, if_neg h1]
    have := ih p (by simpa [allNonEmpty] using h2)
    simpa using this

lemma rank_le_sys_step (reg : Registry) (s : State) (a : ThreadAction) :
    rank s ≤ rank (sys_step reg s a) := by
  cases a with
  | close => cases s <;> simp [sys_step, rank]
  | read line =>
    cases s with
    | CONNECTING => exact Nat.zero_le _
    | OPEN => exact Nat.le_refl _
    | CLOSED => exact Nat.le_refl _

lemma stateAt_succ (reg : Registry) (tr : List ThreadAction) (i : Nat) :
    stateAt reg tr (i + 1) =
      match tr[i]? with
      | some a => sys_step reg (stateAt reg tr i) a
      | none => stateAt reg tr i := by
  unfold stateAt
  rw [List.take_succ, List.foldl_append]
  cases h : tr[i]? with
  | none => simp [h]
  | some a => simp [h]

lemma rank_stateAt_succ (reg : Registry) (tr : List ThreadAction) (i : Nat) :
    rank (stateAt reg tr i) ≤ rank (stateAt reg tr (i + 1)) := by
  rw [stateAt_succ]
  cases h : tr[i]? with
  | none => exact Nat.le_refl _
  | some a => exact rank_le_sys_step reg (stateAt reg tr i) a

lemma rank_stateAt_mono (reg : Registry) (tr : List ThreadAction)
    (i j : Nat) (hij : i ≤ j) :
    rank (stateAt reg tr i) ≤ rank (stateAt reg tr j) := by
  induction hij with
  | refl => exact Nat.le_refl _
  | step h2 ih => exact Nat.le_trans ih (rank_stateAt_succ reg tr _)

lemma open_entry_iff (reg : Registry) (tr : List ThreadAction) (i : Nat) :
    (stateAt reg tr i ≠ State.OPEN ∧ stateAt reg tr (i + 1) = State.OPEN) ↔
      (tr[i]? = some (ThreadAction.read "") ∧
        stateAt reg tr i = State.CONNECTING) := by
  constructor
  · rintro ⟨hne, hop⟩
    rw [stateAt_succ] at hop
    cases hg : tr[i]? with
    | none =>
      rw [hg] at hop
      exact absurd hop hne
    | some a =>
      rw [hg] at hop
      have hop2 : sys_step reg (stateAt reg tr i) a = State.OPEN := hop
      cases a with
      | close => simp [sys_step] at hop2
      | read line =>
        cases hs : stateAt reg tr i with
        | CONNECTING =>
          rw [hs] at hop2
          have hop3 : (handle_stream_header line reg.on_open_listeners).1 =
              State.OPEN := hop2
          unfold handle_stream_header at hop3
          by_cases hl : line = ""
          · subst hl; exact ⟨rfl, rfl⟩
          · rw [if_neg hl] at hop3
            simp at hop3
        | OPEN => exact absurd hs hne
        | CLOSED =>
          rw [hs] at hop2
          simp [sys_step] at hop2
  · rintro ⟨hg, hs⟩
    refine ⟨by rw [hs]; simp, ?_⟩
    rw [stateAt_succ, hg, hs]
    show (handle_stream_header "" reg.on_open_listeners).1 = State.OPEN
    simp [handle_stream_header]

/-! Claim theorems. -/

/-- C1: the claim (and the spec's edge-case policy) says a body line with no
`:` must not panic the worker and is read as a field whose name is the whole
line with an empty value. The code violates this: `parse_field` indexes
`parts[1]`, which does not exist for a colonless line, so the worker panics
(modelled by `none`) and the run has no final state. -/
theorem c1_colonless_line_panics :
    parse_field "data" = none ∧
    handle_stream_body none "data" [] = none ∧
    (run_worker { on_open_listeners := [], listeners := on_message [] 0 }
      (State.OPEN, none) ["data"]).2 = none := by decide

/-- C2 counterexample: the claim says the value is the entire remainder after
the first `:` with only leading whitespace removed (`parse_field_spec`). On
`"data: a:b"` the code keeps only the part between the first and second `:`,
and on `"data: x "` it also removes trailing whitespace. -/
theorem c2_value_truncated_cex :
    parse_field "data: a:b" = some ("data", "a") ∧
    parse_field_spec "data: a:b" = some ("data", "a:b") ∧
    parse_field "data: x " = some ("data", "x") ∧
    parse_field_spec "data: x " = some ("data", "x ") := by decide

/-- C2 (amended): the parsed field name is the text before the first `:`; the
parsed value is the text between the first and the second `:` (to the end of
the line when there is no second `:`), with whitespace trimmed from BOTH
ends; `event` sets the pending Event's type, `data` sets its data, and any
other field name leaves the pending Event unchanged. -/
theorem c2_parse_and_update_amended :
    (∀ n v : String, ':' ∉ n.data → ':' ∉ v.data →
      parse_field (n ++ ":" ++ v) = some (n, String.mk (trimChars v.data))) ∧
    (∀ n v w : String, ':' ∉ n.data → ':' ∉ v.data →
      parse_field (n ++ ":" ++ v ++ ":" ++ w) =
        some (n, String.mk (trimChars v.data))) ∧
    (∀ (e : Event) (line n v : String), parse_field line = some (n, v) →
      n ≠ "event" → n ≠ "data" → update_event (some e) line = some (some e)) ∧
    (∀ (e : Event) (line v : String), parse_field line = some ("event", v) →
      update_event (some e) line = some (some { type_ := v, data := e.data })) ∧
    (∀ (e : Event) (line v : String), parse_field line = some ("data", v) →
      update_event (some e) line =
        some (some { type_ := e.type_, data := v })) := by
  refine ⟨?_, ?_, ?_, ?_, ?_⟩
  · intro n v hn hv
    exact parse_field_of_split n v hn hv
  · intro n v w hn hv
    unfold parse_field
    have hd : (n ++ ":" ++ v ++ ":" ++ w).data =
        n.data ++ ':' :: (v.data ++ ':' :: w.data) := by
      rw [data_append_colon_cons (n ++ ":" ++ v) w, data_append_colon_cons n v,
        List.append_assoc]
      rfl
    rw [hd, splitOnChar_append_sep ':' n.data (v.data ++ ':' :: w.data) hn,
      splitOnChar_append_sep ':' v.data w.data hv]
  · intro e line n v hp he hd
    have := update_event_of_parse_other (some e) line n v hp he hd
    simpa using this
  · intro e line v hp
    exact update_event_of_parse_event e line v hp
  · intro e line v hp
    exact update_event_of_parse_data e line v hp

/-- C2 witness: the amended theorem evaluated on the concrete line
`"data: a:b"` (built as `"data" ++ ":" ++ " a" ++ ":" ++ "b"`). -/
theorem c2_parse_and_update_amended_witness :
    ':' ∉ ("data" : String).data ∧ ':' ∉ (" a" : String).data ∧
    parse_field ("data" ++ ":" ++ " a" ++ ":" ++ "b") =
      some ("data", String.mk (trimChars (" a" : String).data)) := by
  refine ⟨by decide, by decide, ?_⟩
  exact c2_parse_and_update_amended.2.1 "data" " a" "b" (by decide) (by decide)

/-- C3: the claim (and the spec) says a comment line leaves the pending
Event exactly as it was. The code violates this: `handle_stream_body`
returns its local `event` variable, which is still `None` on the comment
path, so the pending Event is discarded: with the comment in the middle of
a block the following blank line dispatches nothing, while without it the
event is dispatched. -/
theorem c3_comment_discards_pending :
    handle_stream_body (some { type_ := "message", data := "x" }) ":comment"
      (on_message [] 0) = some (none, []) ∧
    (run_worker { on_open_listeners := [], listeners := on_message [] 0 }
      (State.OPEN, none) ["data: x", ":comment", ""]).1 = [] ∧
    (run_worker { on_open_listeners := [], listeners := on_message [] 0 }
      (State.OPEN, none) ["data: x", ""]).1 =
      [Call.event 0 { type_ := "message", data := "x" }] := by decide

/-- C4 counterexample: the claim says a connection-establishment failure is
returned to the caller as a `ConnectionError`. The constructor instead
`unwrap`s the connector result and panics. -/
theorem c4_connect_failure_panics_cex :
    eventSource_new (Except.ok ()) (Except.error "connection refused") =
      NewOutcome.panicked := by decide

/-- C4 (amended): for every malformed endpoint the constructor returns the
parse error synchronously and starts no worker; for every well-formed
endpoint whose connection fails, the constructor panics instead of
returning an error. -/
theorem c4_new_error_behavior_amended :
    (∀ (e : String) (c : Except String Unit),
      eventSource_new (Except.error e) c = NewOutcome.err e) ∧
    (∀ e : String,
      eventSource_new (Except.ok ()) (Except.error e) = NewOutcome.panicked) :=
  ⟨fun _ _ => rfl, fun _ => rfl⟩

/-- C5: along every interleaving of worker reads and `close()` calls from
CONNECTING, the shared state only moves forward along
CONNECTING → OPEN → CLOSED (rank is monotone), CLOSED is never left, and
OPEN is entered exactly at a step that reads the empty line while the state
is CONNECTING — hence at most once. -/
theorem c5_state_monotone_open_once (reg : Registry) (tr : List ThreadAction) :
    (∀ i j, i ≤ j → rank (stateAt reg tr i) ≤ rank (stateAt reg tr j)) ∧
    (∀ i, stateAt reg tr i = State.CLOSED →
      stateAt reg tr (i + 1) = State.CLOSED) ∧
    (∀ i, (stateAt reg tr i ≠ State.OPEN ∧
        stateAt reg tr (i + 1) = State.OPEN) ↔
      (tr[i]? = some (ThreadAction.read "") ∧
        stateAt reg tr i = State.CONNECTING)) ∧
    (∀ i j, stateAt reg tr i ≠ State.OPEN → stateAt reg tr (i + 1) = State.OPEN →
      stateAt reg tr j ≠ State.OPEN → stateAt reg tr (j + 1) = State.OPEN →
      i = j) := by
  refine ⟨rank_stateAt_mono reg tr, ?_, open_entry_iff reg tr, ?_⟩
  · intro i hc
    rw [stateAt_succ]
    cases h : tr[i]? with
    | none => exact hc
    | some a =>
      show sys_step reg (stateAt reg tr i) a = State.CLOSED
      rw [hc]
      cases a <;> rfl
  · intro i j hi1 hi2 hj1 hj2
    rcases Nat.lt_trichotomy i j with h | h | h
    · exfalso
      have hm := rank_stateAt_mono reg tr (i + 1) j h
      rw [hi2] at hm
      have hsj := ((open_entry_iff reg tr j).mp ⟨hj1, hj2⟩).2
      rw [hsj] at hm
      simp [rank] at hm
    · exact h
    · exfalso
      have hm := rank_stateAt_mono reg tr (j + 1) i h
      rw [hj2] at hm
      have hsi := ((open_entry_iff reg tr i).mp ⟨hi1, hi2⟩).2
      rw [hsi] at hm
      simp [rank] at hm

/-- C5 witness: the trace reads a header line, then the empty line, then a
`close()`; monotonicity from position 0 to 3, and the entry characterisation
at position 1. -/
theorem c5_state_monotone_open_once_witness :
    rank (stateAt { on_open_listeners := [], listeners := [] }
        [ThreadAction.read "h", ThreadAction.read "", ThreadAction.close] 0) ≤
      rank (stateAt { on_open_listeners := [], listeners := [] }
        [ThreadAction.read "h", ThreadAction.read "", ThreadAction.close] 3) ∧
    ([ThreadAction.read "h", ThreadAction.read "", ThreadAction.close][1]? =
        some (ThreadAction.read "") ∧
      stateAt { on_open_listeners := [], listeners := [] }
        [ThreadAction.read "h", ThreadAction.read "", ThreadAction.close] 1 =
        State.CONNECTING) := by
  constructor
  · exact (c5_state_monotone_open_once
      { on_open_listeners := [], listeners := [] }
      [ThreadAction.read "h", ThreadAction.read "", ThreadAction.close]).1
      0 3 (by decide)
  · exact ((c5_state_monotone_open_once
      { on_open_listeners := [], listeners := [] }
      [ThreadAction.read "h", ThreadAction.read "", ThreadAction.close]).2.2.1
      1).mp ⟨by decide, by decide⟩

/-- C6: for any all-non-empty header lines followed by the first empty line,
the worker's output trace is exactly the open-callbacks in registration
order followed by the body outputs, and the body outputs contain no
open-callback invocation: each open-callback fires exactly once, before any
event dispatch, and no later empty line fires them again. -/
theorem c6_open_callbacks_once_before_events (reg : Registry)
    (headers rest : List String) (h : allNonEmpty headers = true) :
    (run_worker reg (State.CONNECTING, none) (headers ++ "" :: rest)).1 =
      dispatch_open_event reg.on_open_listeners ++
        (run_worker reg (State.OPEN, none) rest).1 ∧
    ∀ c ∈ (run_worker reg (State.OPEN, none) rest).1,
      ∀ cb, c ≠ Call.onOpen cb := by
  constructor
  · rw [run_worker_header_phase reg rest headers none h]
  · intro c hc
    obtain ⟨cb2, e, rfl⟩ := run_worker_open_only_events reg rest none c hc
    intro cb
    simp

/-- C6 witness: one header line, the blank line, then one event block. -/
theorem c6_open_callbacks_once_before_events_witness :
    allNonEmpty ["HTTP/1.1 200 OK"] = true ∧
    (run_worker { on_open_listeners := [7], listeners := on_message [] 0 }
        (State.CONNECTING, none)
        (["HTTP/1.1 200 OK"] ++ "" :: ["data: m", ""])).1 =
      dispatch_open_event [7] ++
        (run_worker { on_open_listeners := [7], listeners := on_message [] 0 }
          (State.OPEN, none) ["data: m", ""]).1 := by
  refine ⟨by decide, ?_⟩
  exact (c6_open_callbacks_once_before_events
    { on_open_listeners := [7], listeners := on_message [] 0 }
    ["HTTP/1.1 200 OK"] ["data: m", ""] (by decide)).1

/-- C7: on the line sequence of `"\ndata: some message\n\n"`, a listener
registered through `on_message` receives exactly one Event, of type
`"message"` with data `"some message"`. -/
theorem c7_single_message_dispatch :
    (run_worker { on_open_listeners := [], listeners := on_message [] 0 }
        (State.CONNECTING, none) ["", "data: some message", ""]).1 =
      [Call.event 0 { type_ := "message", data := "some message" }] := by decide

/-- C8: an empty body line with no pending Event is a no-op for every
listener map, and on the line sequence of `"\ndata: x\n\n\n\ndata: y\n\n"`
exactly two events are dispatched, with no spurious empty-event dispatch
for the extra blank lines. -/
theorem c8_empty_line_noop_two_dispatches :
    (∀ L : List (String × List Nat),
      handle_stream_body none "" L = some (none, [])) ∧
    (run_worker { on_open_listeners := [], listeners := on_message [] 0 }
        (State.CONNECTING, none) ["", "data: x", "", "", "", "data: y", ""]).1 =
      [Call.event 0 { type_ := "message", data := "x" },
        Call.event 0 { type_ := "message", data := "y" }] := by
  exact ⟨fun L => rfl, by decide⟩

/-- C9 counterexample: the claim says ANY non-empty, non-comment body line
creates a pending Event. A colonless line such as `"retry"` instead panics
the worker (no pending Event, and the following blank line dispatches
nothing). -/
theorem c9_colonless_creates_no_pending_cex :
    handle_stream_body none "retry" [] = none ∧
    (run_worker { on_open_listeners := [], listeners := on_message [] 0 }
      (State.OPEN, none) ["retry", ""]).1 = [] := by decide

/-- C9 (amended): any non-empty, non-comment body line whose parse succeeds
(it contains a `:`) creates a pending Event when none exists; when its field
name is neither `event` nor `data` the pending Event is the default
`message` event with empty data, and the following empty line dispatches
that Event to the `message` listeners. -/
theorem c9_unknown_field_creates_default_amended :
    (∀ (line : String) (L : List (String × List Nat)) (n v : String),
      line ≠ "" → startsWithChar ':' line = false →
      parse_field line = some (n, v) →
      ∃ ev, handle_stream_body none line L = some (some ev, [])) ∧
    (∀ (line : String) (L : List (String × List Nat)) (n v : String),
      line ≠ "" → startsWithChar ':' line = false →
      parse_field line = some (n, v) → n ≠ "event" → n ≠ "data" →
      handle_stream_body none line L =
        some (some { type_ := "message", data := "" }, [])) ∧
    (∀ cb : Nat,
      handle_stream_body (some { type_ := "message", data := "" }) ""
        (on_message [] cb) =
        some (none, [Call.event cb { type_ := "message", data := "" }])) := by
  refine ⟨?_, ?_, ?_⟩
  · intro line L n v h1 h2 hp
    rw [handle_stream_body_field none line L h1 h2]
    obtain ⟨ev, hev⟩ := update_event_isSome_of_parse none line n v hp
    rw [hev]
    exact ⟨ev, rfl⟩
  · intro line L n v h1 h2 hp h3 h4
    rw [handle_stream_body_field none line L h1 h2,
      update_event_of_parse_other none line n v hp h3 h4]
  · intro cb
    rfl

/-- C9 witness: the unknown-field line `"id: 7"` with an empty listener
map. -/
theorem c9_unknown_field_creates_default_amended_witness :
    ("id: 7" : String) ≠ "" ∧ startsWithChar ':' "id: 7" = false ∧
    parse_field "id: 7" = some ("id", "7") ∧
    handle_stream_body none "id: 7" [] =
      some (some { type_ := "message", data := "" }, []) := by
  refine ⟨by decide, by decide, by decide, ?_⟩
  exact c9_unknown_field_creates_default_amended.2.1 "id: 7" [] "id" "7"
    (by decide) (by decide) (by decide) (by decide) (by decide)

/-- C10: a later `data` (or `event`) line overwrites the field value set by
an earlier one — the resulting Event carries only the last value, never a
concatenation; chaining two `data` lines ends with the second value. -/
theorem c10_last_field_wins :
    (∀ (e : Event) (line v : String), parse_field line = some ("data", v) →
      update_event (some e) line =
        some (some { type_ := e.type_, data := v })) ∧
    (∀ (e : Event) (line v : String), parse_field line = some ("event", v) →
      update_event (some e) line =
        some (some { type_ := v, data := e.data })) ∧
    (∀ (e : Event) (l1 l2 v1 v2 : String),
      parse_field l1 = some ("data", v1) → parse_field l2 = some ("data", v2) →
      Option.bind (update_event (some e) l1) (fun p => update_event p l2) =
        some (some { type_ := e.type_, data := v2 })) := by
  refine ⟨?_, ?_, ?_⟩
  · intro e line v hp
    exact update_event_of_parse_data e line v hp
  · intro e line v hp
    exact update_event_of_parse_event e line v hp
  · intro e l1 l2 v1 v2 h1 h2
    rw [update_event_of_parse_data e l1 v1 h1]
    show update_event (some { type_ := e.type_, data := v1 }) l2 = _
    exact update_event_of_parse_data { type_ := e.type_, data := v1 } l2 v2 h2

/-- C10 witness: two consecutive `data` lines; the dispatched value is the
second one. -/
theorem c10_last_field_wins_witness :
    parse_field "data: first" = some ("data", "first") ∧
    parse_field "data: second" = some ("data", "second") ∧
    Option.bind (update_event (some { type_ := "message", data := "" })
        "data: first") (fun p => update_event p "data: second") =
      some (some { type_ := "message", data := "second" }) := by
  refine ⟨by decide, by decide, ?_⟩
  exact c10_last_field_wins.2.2 { type_ := "message", data := "" }
    "data: first" "data: second" "first" "second" (by decide) (by decide)
